import Mathlib

/-!
Verification of the recon aggregator (`Recon Script.py`) against its
natural-language specification.  The Python source is shallowly embedded:

* network effects (the HEAD probe, the GET fallback, the CDX archive query,
  DNS resolution, the final file write) are modelled as explicit inputs or
  function-valued parameters describing what the environment returns, and
  each Python function becomes a pure Lean function of those inputs;
* Python dicts with optional keys become structures with `Option` fields
  (a numeric value present ↔ `some`);
* exceptions become `Except` or dedicated "failure" constructors carrying
  the message string of the exception (the result of `str(e)` in Python);
* the asyncio semaphore discipline of `check_url` / `bulk_check_urls` is
  modelled as a small-step transition system over per-task event traces.
-/

namespace Recon

/-! ## Probe outcomes (`check_url`, source lines 92–106)

A probe outcome is the dict returned by `check_url`.  The Python dict has a
`status` key that may be absent or hold `None`; both are modelled as `none`
(by "status code present" the spec means a numeric status).  `final_url` is
only set on the two success paths; `error` only on the two failure paths. -/

structure Outcome where
  url : String
  status : Option Nat
  final_url : Option String
  error : Option String
deriving DecidableEq, Repr

/-- Result of the lightweight HEAD probe (`session.head(...)` line 96):
either a response (status and final URL after redirects), or an
`aiohttp.ClientResponseError` (caught at line 98, carrying the status
attribute of the exception — `None` when absent — and `str(e)`), or any
other exception (network error, timeout, ... — caught at line 100,
carrying `str(e)`). -/
inductive HeadResult where
  | success (status : Nat) (finalUrl : String)
  | respError (status : Option Nat) (msg : String)
  | exn (msg : String)
deriving DecidableEq, Repr

/-- Result of the fallback GET request (`session.get(...)` line 103):
a response, or any exception (caught at line 105, carrying `str(e2)`). -/
inductive GetResult where
  | success (status : Nat) (finalUrl : String)
  | exn (msg : String)
deriving DecidableEq, Repr

/-- Model of `check_url` (lines 92–106), as a function of what the two
requests would return.  The `get` argument describes what the GET fallback
would return if it were issued; the match structure mirrors the
`try / except aiohttp.ClientResponseError / except Exception` nesting of
the source, and the GET result is consulted only in the final
generic-exception branch. -/
def check_url (url : String) (head : HeadResult) (get : GetResult) : Outcome :=
  match head with
  | .success st fu => { url := url, status := some st, final_url := some fu, error := none }
  | .respError st msg => { url := url, status := st, final_url := none, error := some msg }
  | .exn _ =>
    match get with
    | .success st fu => { url := url, status := some st, final_url := some fu, error := none }
    | .exn msg2 => { url := url, status := none, final_url := none, error := some msg2 }

/-- Whether the control flow of `check_url` reaches the `session.get`
fallback call (line 103) for a given HEAD result: only the generic
`except Exception` branch does; the `ClientResponseError` branch (line 98)
returns without issuing a GET. -/
def attemptsFallback : HeadResult → Bool
  | .exn _ => true
  | _ => false

/-- Whether the HEAD probe failed (raised), i.e. did not return a response. -/
def headFailed : HeadResult → Bool
  | .success _ _ => false
  | _ => true

/-- Model of `bulk_check_urls` (lines 108–116): one task per input URL, and
`asyncio.gather` returns the task results in the order the tasks were
passed, i.e. in input order.  `behav` describes, per URL, what the HEAD
probe and the GET fallback would return. -/
def bulk_check_urls (behav : String → HeadResult × GetResult) (urls : List String) :
    List Outcome :=
  urls.map fun u => check_url u (behav u).1 (behav u).2

/-! ## Basic facts about `check_url` and `bulk_check_urls` -/

theorem check_url_url (u : String) (h : HeadResult) (g : GetResult) :
    (check_url u h g).url = u := by
  cases h <;> cases g <;> rfl

theorem bulk_check_urls_map_url (behav : String → HeadResult × GetResult)
    (urls : List String) : (bulk_check_urls behav urls).map Outcome.url = urls := by
  induction urls with
  | nil => rfl
  | cons u rest ih =>
      simp [bulk_check_urls, check_url_url] at ih ⊢
      exact ih

theorem bulk_check_urls_length (behav : String → HeadResult × GetResult)
    (urls : List String) : (bulk_check_urls behav urls).length = urls.length := by
  simp [bulk_check_urls]

/-! ## Archive URL Source (`get_wayback_urls_via_cdx`, lines 62–90)

The JSON body of the CDX API parses to a list of rows; each row may be a
JSON array (of strings, for this endpoint), a bare string, or some other
JSON value (the two `isinstance` tests silently skip anything else). -/

inductive CdxRow where
  | arr (xs : List String)
  | str (s : String)
  | other
deriving DecidableEq, Repr

/-- The header test at line 74: `isinstance(row, list) and "original" in row`. -/
def isHeaderRow : CdxRow → Bool
  | .arr xs => xs.contains "original"
  | _ => false

/-- The extraction loop (lines 72–80).  `row[0]` on an empty array raises
`IndexError`, which escapes to the outer `except` — hence `Except`.  The
`Nat` argument is the `enumerate` index: only index 0 can be a header. -/
def extractUrls : Nat → List CdxRow → Except Unit (List String)
  | _, [] => .ok []
  | i, row :: rest =>
    if i = 0 ∧ isHeaderRow row then
      extractUrls (i + 1) rest
    else
      match row with
      | .arr [] => .error ()
      | .arr (x :: _) => (extractUrls (i + 1) rest).map (x :: ·)
      | .str s => (extractUrls (i + 1) rest).map (s :: ·)
      | .other => extractUrls (i + 1) rest

/-- The dedupe loop of lines 81–88 (and the identical pattern at
lines 170–178): keep a `seen` collection, emit each URL not seen before.
Python uses a `set`; membership is the only operation, so a list with
`∈` is an equivalent model. -/
def dedupeKeepOrder (seen : List String) : List String → List String
  | [] => []
  | u :: rest =>
    if u ∈ seen then dedupeKeepOrder seen rest
    else u :: dedupeKeepOrder (u :: seen) rest

/-- What the `requests.get` call of line 66 produced: a raised exception
(network failure), or a response with a status code and a body whose JSON
parse (`r.json()`, line 69) either fails or yields rows. -/
inductive CdxResponse where
  | netError (msg : String)
  | response (status : Nat) (body : Except Unit (List CdxRow))
deriving Repr

/-- Model of `get_wayback_urls_via_cdx` (lines 62–90): non-200 → `[]`; any raised
exception (network, JSON parse, `row[0]` IndexError) is caught by the
`except Exception` at line 89 → `[]`; otherwise dedupe preserving order. -/
def get_wayback_urls_via_cdx (resp : CdxResponse) : List String :=
  match resp with
  | .netError _ => []
  | .response status body =>
    if status ≠ 200 then []
    else
      match body with
      | .error _ => []
      | .ok rows =>
        match extractUrls 0 rows with
        | .error _ => []
        | .ok urls => dedupeKeepOrder [] urls

/-- A parse or network failure of the remote query: the request raised, the
status was non-200, the JSON parse failed, or row extraction raised. -/
def cdxFailed : CdxResponse → Bool
  | .netError _ => true
  | .response status body =>
    status != 200 ||
      (match body with
       | .error _ => true
       | .ok rows =>
         match extractUrls 0 rows with
         | .error _ => true
         | .ok _ => false)

/-- The dedup-and-cap loop of `main` (lines 170–178): append unseen URLs
to `uniq` and stop as soon as `uniq` has reached `maxW` entries (the
length test runs every iteration, after a possible append, mirroring the
`break` placement). -/
def limitDedupe (maxW : Nat) : List String → List String → List String → List String
  | _, uniq, [] => uniq
  | seen, uniq, u :: rest =>
    if u ∈ seen then
      if maxW ≤ uniq.length then uniq else limitDedupe maxW seen uniq rest
    else
      if maxW ≤ (uniq ++ [u]).length then uniq ++ [u]
      else limitDedupe maxW (u :: seen) (uniq ++ [u]) rest

/-! ## Dedupe lemmas -/

theorem dedupeKeepOrder_sublist (seen : List String) (l : List String) :
    (dedupeKeepOrder seen l).Sublist l := by
  induction l generalizing seen with
  | nil => simp [dedupeKeepOrder]
  | cons u rest ih =>
      by_cases h : u ∈ seen
      · simp only [dedupeKeepOrder, if_pos h]
        exact (ih seen).trans (List.sublist_cons_self u rest)
      · simp only [dedupeKeepOrder, if_neg h]
        exact (ih (u :: seen)).cons₂ u

theorem not_mem_seen_of_mem_dedupeKeepOrder (seen : List String) (l : List String)
    (u : String) (hu : u ∈ dedupeKeepOrder seen l) : u ∉ seen := by
  induction l generalizing seen with
  | nil => simp [dedupeKeepOrder] at hu
  | cons v rest ih =>
      by_cases h : v ∈ seen
      · simp only [dedupeKeepOrder, if_pos h] at hu
        exact ih seen hu
      · simp only [dedupeKeepOrder, if_neg h] at hu
        rcases List.mem_cons.mp hu with rfl | hu'
        · exact h
        · have := ih (v :: seen) hu'
          intro hc
          exact this (List.mem_cons_of_mem v hc)

theorem dedupeKeepOrder_nodup (seen : List String) (l : List String) :
    (dedupeKeepOrder seen l).Nodup := by
  induction l generalizing seen with
  | nil => simp [dedupeKeepOrder]
  | cons u rest ih =>
      by_cases h : u ∈ seen
      · simp only [dedupeKeepOrder, if_pos h]
        exact ih seen
      · simp only [dedupeKeepOrder, if_neg h]
        refine List.nodup_cons.mpr ⟨?_, ih (u :: seen)⟩
        intro hc
        exact not_mem_seen_of_mem_dedupeKeepOrder _ _ _ hc (List.mem_cons_self u seen)

theorem dedupeKeepOrder_eq_self (seen : List String) (l : List String)
    (hnd : l.Nodup) (hdisj : ∀ u ∈ l, u ∉ seen) : dedupeKeepOrder seen l = l := by
  induction l generalizing seen with
  | nil => rfl
  | cons u rest ih =>
      have hu : u ∉ seen := hdisj u (List.mem_cons_self u rest)
      simp only [dedupeKeepOrder, if_neg hu]
      have hnd' := List.nodup_cons.mp hnd
      congr 1
      refine ih (u :: seen) hnd'.2 ?_
      intro v hv hc
      rcases List.mem_cons.mp hc with rfl | hc'
      · exact hnd'.1 hv
      · exact hdisj v (List.mem_cons_of_mem u hv) hc'

/-- The cap loop computes a `take` of the order-preserving dedupe, as long
as the accumulator is still below the cap. -/
theorem limitDedupe_eq (maxW : Nat) (l seen uniq : List String)
    (h : uniq.length < maxW) :
    limitDedupe maxW seen uniq l = uniq ++ (dedupeKeepOrder seen l).take (maxW - uniq.length) := by
  induction l generalizing seen uniq with
  | nil => simp [limitDedupe, dedupeKeepOrder]
  | cons u rest ih =>
      simp only [limitDedupe, dedupeKeepOrder]
      by_cases hmem : u ∈ seen
      · rw [if_pos hmem, if_pos hmem, if_neg (Nat.not_le.mpr h)]
        exact ih seen uniq h
      · rw [if_neg hmem, if_neg hmem]
        have hlen : (uniq ++ [u]).length = uniq.length + 1 := by simp
        by_cases hfull : maxW ≤ (uniq ++ [u]).length
        · have heq : maxW - uniq.length = 1 := by rw [hlen] at hfull; omega
          rw [if_pos hfull, heq, List.take_succ_cons, List.take_zero]
        · have h' : (uniq ++ [u]).length < maxW := Nat.not_le.mp hfull
          rw [if_neg hfull, ih (u :: seen) (uniq ++ [u]) h']
          have hsub : maxW - (uniq ++ [u]).length = maxW - uniq.length - 1 := by
            rw [hlen]; omega
          have htk : maxW - uniq.length = (maxW - uniq.length - 1) + 1 := by omega
          rw [hsub]
          conv_rhs => rw [htk]
          rw [List.take_succ_cons, List.append_assoc, List.singleton_append]

/-! ## DNS enumeration, homepage links, and `main` (lines 31–47, 122–134, 136–201)

Resolver, HTTP and file-system effects are function-valued inputs. -/

/-- The record types queried by `dns_enum` (line 35). -/
def recordTypes : List String := ["A", "AAAA", "NS", "MX", "TXT", "CNAME", "SOA"]

/-- Model of `dns_enum` (lines 31–47): each record type is resolved independently;
a raised exception for one type yields `[]` for that type only (the
`except` at line 42).  Successful answers are `str(r).strip()`-ed. -/
def dns_enum (resolve : String → Except String (List String)) :
    List (String × List String) :=
  recordTypes.map fun t =>
    (t, match resolve t with
        | .ok answers => answers.map String.trim
        | .error _ => [])

/-- Model of `basic_html_links` (lines 122–134): exception or non-200 →
`[]`, otherwise the anchor hrefs of the page. -/
def basic_html_links (resp : Except String (Nat × List String)) : List String :=
  match resp with
  | .error _ => []
  | .ok (status, hrefs) => if status ≠ 200 then [] else hrefs

/-- The output record assembled by `main` (modelling a run with the default
CLI flags: no `--use-wayback-bin`, no `--run-dig`). -/
structure Report where
  domain : String
  dns : List (String × List String)
  wayback : List String
  wayback_check : List Outcome
  basic_links_https : List String
deriving Repr

/-- The report `main` builds before the final write (lines 145–196):
DNS enumeration, CDX query, the dedup-and-cap loop (lines 170–179), the
scheme filter (line 183), the liveness check (lines 185–188, only run on a
non-empty list), and the homepage links capped at 200 (line 194). -/
def assembleReport (domain : String) (resolve : String → Except String (List String))
    (cdxResp : CdxResponse) (behav : String → HeadResult × GetResult)
    (maxWayback : Nat) (htmlResp : Except String (Nat × List String)) : Report :=
  let dns := dns_enum resolve
  let wayback_urls := get_wayback_urls_via_cdx cdxResp
  let uniq := limitDedupe maxWayback [] [] wayback_urls
  let urls_to_check := uniq.filter fun u =>
    u.startsWith "http://" || u.startsWith "https://"
  let checks := if urls_to_check.isEmpty then [] else bulk_check_urls behav urls_to_check
  { domain := domain, dns := dns, wayback := uniq, wayback_check := checks,
    basic_links_https := (basic_html_links htmlResp).take 200 }

/-- Model of `main` (lines 136–201): every collaborator failure up to this point has
been converted to empty data; the only remaining fallible step is the
output write (lines 199–200), which is NOT wrapped in any `try` — a raised
exception there propagates out of `main` (and, at top level, terminates the
process with a nonzero exit). -/
def main (domain : String) (resolve : String → Except String (List String))
    (cdxResp : CdxResponse) (behav : String → HeadResult × GetResult)
    (maxWayback : Nat) (htmlResp : Except String (Nat × List String))
    (write : Report → Except String Unit) : Except String Report :=
  let report := assembleReport domain resolve cdxResp behav maxWayback htmlResp
  match write report with
  | .error e => .error e
  | .ok _ => .ok report

/-! ## Semaphore discipline of the checker (lines 92–116)

`bulk_check_urls` creates one task per URL; each task runs `check_url`,
whose whole body sits inside `async with semaphore` (line 94): one acquire
on entry, one release on every exit, exceptions included.  Each task is
abstracted to its trace of scheduler-relevant events, and the runs of the
checker are the interleavings of those traces in which an acquire is only
scheduled while fewer than `B` permits are held — exactly the blocking
`asyncio.Semaphore(B)` discipline. -/

inductive ProbeEvent where
  | acquire
  | headOk
  | headRespError
  | headExn
  | getOk
  | getExn
  | release
deriving DecidableEq, Repr

/-- The event trace of one `check_url` task, mirroring its control flow:
acquire, then one of the four paths (HEAD success / `ClientResponseError` /
HEAD exception then GET success / HEAD exception then GET exception), then
the release performed by `async with` on that exit path. -/
def probeEvents (head : HeadResult) (get : GetResult) : List ProbeEvent :=
  ProbeEvent.acquire ::
    (match head with
     | .success _ _ => [ProbeEvent.headOk]
     | .respError _ _ => [ProbeEvent.headRespError]
     | .exn _ =>
       ProbeEvent.headExn ::
         (match get with
          | .success _ _ => [ProbeEvent.getOk]
          | .exn _ => [ProbeEvent.getExn])) ++ [ProbeEvent.release]

/-- Scheduler state: the remaining events of every task, and the number of
semaphore permits currently held. -/
structure SchedState where
  pending : List (List ProbeEvent)
  held : Nat
deriving Repr

/-- One scheduler step with budget `B`: some task performs its next event.
An `acquire` is only enabled while `held < B` (a blocked task waits);
a `release` returns its permit; any other event leaves `held` unchanged. -/
inductive SchedStep (B : Nat) : SchedState → SchedState → Prop
  | acq (s : SchedState) (i : Nat) (rest : List ProbeEvent)
      (hi : s.pending[i]? = some (ProbeEvent.acquire :: rest)) (hb : s.held < B) :
      SchedStep B s ⟨s.pending.set i rest, s.held + 1⟩
  | rel (s : SchedState) (i : Nat) (rest : List ProbeEvent)
      (hi : s.pending[i]? = some (ProbeEvent.release :: rest)) :
      SchedStep B s ⟨s.pending.set i rest, s.held - 1⟩
  | work (s : SchedState) (i : Nat) (e : ProbeEvent) (rest : List ProbeEvent)
      (hi : s.pending[i]? = some (e :: rest))
      (ha : e ≠ ProbeEvent.acquire) (hr : e ≠ ProbeEvent.release) :
      SchedStep B s ⟨s.pending.set i rest, s.held⟩

/-- The initial state of a checker run: every task still has its full
trace, no permit is held. -/
def initState (traces : List (List ProbeEvent)) : SchedState :=
  ⟨traces, 0⟩

/-- States a checker run can reach. -/
def SchedReach (B : Nat) (traces : List (List ProbeEvent)) (s : SchedState) : Prop :=
  Relation.ReflTransGen (SchedStep B) (initState traces) s

theorem SchedStep.held_le (B : Nat) (s s' : SchedState)
    (hstep : SchedStep B s s') (hs : s.held ≤ B) : s'.held ≤ B := by
  cases hstep with
  | acq i rest hi hb => exact hb
  | rel i rest hi => exact Nat.le_trans (Nat.sub_le _ _) hs
  | work i e rest hi ha hr => exact hs

theorem schedReach_held_le (B : Nat) (traces : List (List ProbeEvent))
    (s : SchedState) (h : SchedReach B traces s) : s.held ≤ B := by
  induction h with
  | refl => exact Nat.zero_le B
  | tail _ hstep ih => exact hstep.held_le _ _ _ ih

/-! ## Further helper lemmas -/

theorem filter_beq_length_of_nodup (u : String) (l : List String)
    (hnd : l.Nodup) (hu : u ∈ l) : (l.filter (fun s => s == u)).length = 1 := by
  induction l with
  | nil => cases hu
  | cons v rest ih =>
      have hnd2 := List.nodup_cons.mp hnd
      by_cases hv : v = u
      · subst hv
        rw [List.filter_cons_of_pos (by simp), List.length_cons]
        have hnil : rest.filter (fun s => s == v) = [] :=
          List.filter_eq_nil_iff.mpr fun a ha => by
            simp only [beq_iff_eq]
            exact fun h => hnd2.1 (h ▸ ha)
        rw [hnil]
        rfl
      · have hmem : u ∈ rest := by
          rcases List.mem_cons.mp hu with h | h
          · exact absurd h.symm hv
          · exact h
        rw [List.filter_cons_of_neg (by simp [hv])]
        exact ih hnd2.2 hmem

/-! ## The claims -/

/-- Claim C1, counterexample: the claim asserts that ANY failure of the
lightweight HEAD probe leads to a GET fallback whose success is recorded.
But when the HEAD probe raises `aiohttp.ClientResponseError` (line 98),
`check_url` returns immediately: the GET fallback (line 103) is never
issued, and the outcome carries the error, not the would-be GET success. -/
theorem c1_head_failure_without_fallback_counterexample :
    headFailed (HeadResult.respError none "Method Not Allowed") = true ∧
    attemptsFallback (HeadResult.respError none "Method Not Allowed") = false ∧
    check_url "http://example.com/" (HeadResult.respError none "Method Not Allowed")
        (GetResult.success 200 "http://example.com/") ≠
      { url := "http://example.com/", status := some 200,
        final_url := some "http://example.com/", error := none } := by
  refine ⟨rfl, rfl, ?_⟩
  decide

/-- Claim C1, amended: the GET fallback is attempted exactly when the HEAD
probe raises an exception other than `aiohttp.ClientResponseError`; in
that case a successful fallback is recorded with its status code and final
URL.  A `ClientResponseError` instead yields an immediate error outcome
carrying the status attribute of the exception (possibly absent) and its
message, with no fallback. -/
theorem c1_fallback_on_generic_exception_only (url msg : String) (st : Option Nat)
    (s : Nat) (fu : String) (g : GetResult) :
    (check_url url (HeadResult.respError st msg) g =
        { url := url, status := st, final_url := none, error := some msg } ∧
      attemptsFallback (HeadResult.respError st msg) = false) ∧
    (check_url url (HeadResult.exn msg) (GetResult.success s fu) =
        { url := url, status := some s, final_url := some fu, error := none } ∧
      attemptsFallback (HeadResult.exn msg) = true) :=
  ⟨⟨rfl, rfl⟩, ⟨rfl, rfl⟩⟩

/-- Claim C2: for every list of N URLs (and any per-URL network behaviour,
independent of the concurrency budget), `bulk_check_urls` returns exactly
N outcomes, the outcomes carry the input URLs (in fact in order), and for
distinct inputs each URL is the `url` field of exactly one outcome.
Completeness of the returned list is the functional content of "does not
return until every probe has completed". -/
theorem c2_bulk_check_urls_complete (behav : String → HeadResult × GetResult)
    (urls : List String) :
    (bulk_check_urls behav urls).length = urls.length ∧
    (bulk_check_urls behav urls).map Outcome.url = urls ∧
    (urls.Nodup → ∀ u ∈ urls,
      ((bulk_check_urls behav urls).filter (fun o => o.url == u)).length = 1) := by
  refine ⟨bulk_check_urls_length behav urls, bulk_check_urls_map_url behav urls, ?_⟩
  intro hnd u hu
  have h1 : ((bulk_check_urls behav urls).filter (fun o => o.url == u)).length
      = (urls.filter (fun s => s == u)).length := by
    rw [← List.countP_eq_length_filter, ← List.countP_eq_length_filter]
    simp only [bulk_check_urls, List.countP_map]
    apply List.countP_congr
    intro a _
    simp [Function.comp, check_url_url]
  rw [h1]
  exact filter_beq_length_of_nodup u urls hnd hu

/-- Witness for claim C2 at a concrete input: two distinct URLs, a
behaviour that times out on HEAD and succeeds on GET. -/
theorem c2_bulk_check_urls_complete_witness :
    ((bulk_check_urls (fun _ => (HeadResult.exn "timeout", GetResult.success 200 "http://a/"))
        ["http://a/", "http://b/"]).filter (fun o => o.url == "http://a/")).length = 1 :=
  (c2_bulk_check_urls_complete
      (fun _ => (HeadResult.exn "timeout", GetResult.success 200 "http://a/"))
      ["http://a/", "http://b/"]).2.2 (by decide) "http://a/" (by decide)

/-- Claim C4: every outcome produced by `check_url` has a numeric status
or an error description, and absence of a status implies an error is
present — on all four control-flow paths. -/
theorem c4_status_or_error (url : String) (head : HeadResult) (get : GetResult) :
    ((check_url url head get).status.isSome || (check_url url head get).error.isSome) = true ∧
    ((check_url url head get).status = none → (check_url url head get).error.isSome = true) := by
  cases head <;> cases get <;> simp [check_url]

/-- Witness for claim C4 at a concrete input on the double-failure path,
discharging the absent-status hypothesis. -/
theorem c4_status_or_error_witness :
    ((check_url "http://a/" (HeadResult.exn "reset") (GetResult.exn "refused")).status.isSome ||
      (check_url "http://a/" (HeadResult.exn "reset") (GetResult.exn "refused")).error.isSome) = true ∧
    (check_url "http://a/" (HeadResult.exn "reset") (GetResult.exn "refused")).error.isSome = true :=
  ⟨(c4_status_or_error "http://a/" (HeadResult.exn "reset") (GetResult.exn "refused")).1,
   (c4_status_or_error "http://a/" (HeadResult.exn "reset") (GetResult.exn "refused")).2 rfl⟩

/-- Claim C5, counterexample: when both requests fail the outcome has no
status, but the error description is `str(e2)`, which is the EMPTY string
for exceptions that stringify to nothing — e.g. `asyncio.TimeoutError()`,
the exception raised when the GET fallback exceeds its timeout.  So the
"non-empty error description" part of the claim fails. -/
theorem c5_empty_error_description_counterexample :
    (check_url "http://dead.example/" (HeadResult.exn "Cannot connect to host")
        (GetResult.exn "")).status = none ∧
    (check_url "http://dead.example/" (HeadResult.exn "Cannot connect to host")
        (GetResult.exn "")).error = some "" := ⟨rfl, rfl⟩

/-- Claim C5, amended: when both the HEAD probe and the GET fallback fail,
the outcome has no status code and an error description equal to the
stringified fallback failure — present, but possibly empty (as for a
timeout). -/
theorem c5_both_fail_outcome (url m1 m2 : String) :
    check_url url (HeadResult.exn m1) (GetResult.exn m2) =
      { url := url, status := none, final_url := none, error := some m2 } := rfl

/-- Claim C10: `asyncio.gather` returns task results in the order the
tasks were created, which is input order, so the i-th outcome of
`bulk_check_urls` carries the i-th input URL. -/
theorem c10_outcomes_in_input_order (behav : String → HeadResult × GetResult)
    (urls : List String) (i : Nat) :
    ((bulk_check_urls behav urls)[i]?).map Outcome.url = urls[i]? := by
  simp only [bulk_check_urls, List.getElem?_map]
  cases urls[i]? <;> simp [check_url_url]

/-- Claim C3: in every reachable state of a checker run, at most `B`
permits are held (the semaphore guard blocks further acquires), and the
event trace of every probe — on each of its exit paths: HEAD success,
response error, fallback success, fallback failure — performs exactly one
acquire and exactly one release, the release being its last action (the
`async with` unwinding, which also runs on exception exits). -/
theorem c3_semaphore_discipline (B : Nat) (traces : List (List ProbeEvent))
    (s : SchedState) (h : SchedReach B traces s) (head : HeadResult) (get : GetResult) :
    s.held ≤ B ∧
    (probeEvents head get).count ProbeEvent.acquire = 1 ∧
    (probeEvents head get).count ProbeEvent.release = 1 ∧
    (probeEvents head get).getLast? = some ProbeEvent.release := by
  refine ⟨schedReach_held_le B traces s h, ?_⟩
  cases head <;> cases get <;> exact ⟨rfl, rfl, rfl⟩

/-- Witness for claim C3: a two-task run with budget 1, after the first
task has acquired the single permit. -/
theorem c3_semaphore_discipline_witness :
    (SchedState.mk
        [[ProbeEvent.headOk, ProbeEvent.release],
         probeEvents (HeadResult.exn "t") (GetResult.exn "")] 1).held ≤ 1 ∧
    (probeEvents (HeadResult.success 200 "http://a/") (GetResult.exn "")).count
        ProbeEvent.acquire = 1 ∧
    (probeEvents (HeadResult.success 200 "http://a/") (GetResult.exn "")).count
        ProbeEvent.release = 1 ∧
    (probeEvents (HeadResult.success 200 "http://a/") (GetResult.exn "")).getLast? =
      some ProbeEvent.release :=
  c3_semaphore_discipline 1
    [probeEvents (HeadResult.success 200 "http://a/") (GetResult.exn ""),
     probeEvents (HeadResult.exn "t") (GetResult.exn "")]
    (SchedState.mk
      [[ProbeEvent.headOk, ProbeEvent.release],
       probeEvents (HeadResult.exn "t") (GetResult.exn "")] 1)
    (Relation.ReflTransGen.single
      (SchedStep.acq _ 0 [ProbeEvent.headOk, ProbeEvent.release] rfl (by decide)))
    (HeadResult.success 200 "http://a/") (GetResult.exn "")

/-- Output of the archive source is duplicate-free on every path. -/
theorem get_wayback_urls_via_cdx_nodup (resp : CdxResponse) :
    (get_wayback_urls_via_cdx resp).Nodup := by
  cases resp with
  | netError m => exact List.nodup_nil
  | response st body =>
      by_cases hst : st ≠ 200
      · simp [get_wayback_urls_via_cdx, hst]
      · cases body with
        | error e => simp [get_wayback_urls_via_cdx, hst]
        | ok rows =>
            cases hex : extractUrls 0 rows with
            | error e => simp [get_wayback_urls_via_cdx, hst, hex]
            | ok urls => simp [get_wayback_urls_via_cdx, hst, hex, dedupeKeepOrder_nodup]

/-- The Archive URL Source pipeline as run by `main` with the default
flags: the remote CDX query result, then the dedup-and-cap loop of
lines 170–179. -/
def waybackPipeline (maxW : Nat) (resp : CdxResponse) : List String :=
  limitDedupe maxW [] [] (get_wayback_urls_via_cdx resp)

/-- Claim C6: for a positive cap, the pipeline yields the first `maxW`
URLs of the (already order-preserving, duplicate-free) source output — so
it is duplicate-free, of length at most `maxW`, a sublist of the source
output (first-seen order preserved), and accumulation stops at `maxW`
unique URLs. -/
theorem c6_pipeline_dedupes_and_caps (maxW : Nat) (resp : CdxResponse)
    (h : 1 ≤ maxW) :
    waybackPipeline maxW resp = (get_wayback_urls_via_cdx resp).take maxW ∧
    (waybackPipeline maxW resp).Nodup ∧
    (waybackPipeline maxW resp).length ≤ maxW ∧
    (waybackPipeline maxW resp).Sublist (get_wayback_urls_via_cdx resp) := by
  have hsrc := get_wayback_urls_via_cdx_nodup resp
  have heq : waybackPipeline maxW resp = (get_wayback_urls_via_cdx resp).take maxW := by
    unfold waybackPipeline
    rw [limitDedupe_eq maxW _ [] [] (by simpa using h)]
    rw [dedupeKeepOrder_eq_self [] _ hsrc (by simp)]
    simp
  refine ⟨heq, ?_, ?_, ?_⟩
  · rw [heq]
    exact (List.take_sublist _ _).nodup hsrc
  · rw [heq]
    exact List.length_take_le _ _
  · rw [heq]
    exact List.take_sublist _ _

/-- Witness for claim C6: cap 1 on a response with a header row, a
duplicate, and a second URL. -/
theorem c6_pipeline_dedupes_and_caps_witness :
    waybackPipeline 1 (CdxResponse.response 200 (Except.ok
        [CdxRow.arr ["original"], CdxRow.arr ["http://e/x"],
         CdxRow.arr ["http://e/x"], CdxRow.str "http://e/y"])) =
      (get_wayback_urls_via_cdx (CdxResponse.response 200 (Except.ok
        [CdxRow.arr ["original"], CdxRow.arr ["http://e/x"],
         CdxRow.arr ["http://e/x"], CdxRow.str "http://e/y"]))).take 1 ∧
    (waybackPipeline 1 (CdxResponse.response 200 (Except.ok
        [CdxRow.arr ["original"], CdxRow.arr ["http://e/x"],
         CdxRow.arr ["http://e/x"], CdxRow.str "http://e/y"]))).Nodup ∧
    (waybackPipeline 1 (CdxResponse.response 200 (Except.ok
        [CdxRow.arr ["original"], CdxRow.arr ["http://e/x"],
         CdxRow.arr ["http://e/x"], CdxRow.str "http://e/y"]))).length ≤ 1 ∧
    (waybackPipeline 1 (CdxResponse.response 200 (Except.ok
        [CdxRow.arr ["original"], CdxRow.arr ["http://e/x"],
         CdxRow.arr ["http://e/x"], CdxRow.str "http://e/y"]))).Sublist
      (get_wayback_urls_via_cdx (CdxResponse.response 200 (Except.ok
        [CdxRow.arr ["original"], CdxRow.arr ["http://e/x"],
         CdxRow.arr ["http://e/x"], CdxRow.str "http://e/y"]))) :=
  c6_pipeline_dedupes_and_caps 1 (CdxResponse.response 200 (Except.ok
      [CdxRow.arr ["original"], CdxRow.arr ["http://e/x"],
       CdxRow.arr ["http://e/x"], CdxRow.str "http://e/y"])) (by decide)

/-- Claim C7: on the spec scenario — a 200 response parsing to a header
row followed by the same URL twice — the source yields exactly that URL
once: header skipped, duplicate collapsed. -/
theorem c7_header_skipped_duplicate_collapsed :
    get_wayback_urls_via_cdx (CdxResponse.response 200 (Except.ok
        [CdxRow.arr ["original"], CdxRow.arr ["http://example.com/x"],
         CdxRow.arr ["http://example.com/x"]])) = ["http://example.com/x"] := by
  decide

/-- Claim C8: every failing remote query — raised request, non-200
status, JSON parse failure, or row extraction failure — makes the source
return `[]`, the same value as a successful query with no URLs, so the
caller cannot tell the two apart. -/
theorem c8_failure_yields_empty (resp : CdxResponse) (h : cdxFailed resp = true) :
    get_wayback_urls_via_cdx resp = [] := by
  cases resp with
  | netError m => rfl
  | response st body =>
      by_cases hst : st ≠ 200
      · simp [get_wayback_urls_via_cdx, hst]
      · cases body with
        | error e => simp [get_wayback_urls_via_cdx, hst]
        | ok rows =>
            cases hex : extractUrls 0 rows with
            | error e => simp [get_wayback_urls_via_cdx, hst, hex]
            | ok urls =>
                exfalso
                rw [not_not] at hst
                subst hst
                simp [cdxFailed, hex] at h

/-- Witness for claim C8: a 200 response whose body fails to parse as
JSON is indistinguishable from an empty result. -/
theorem c8_failure_yields_empty_witness :
    get_wayback_urls_via_cdx (CdxResponse.response 200 (Except.error ())) = [] :=
  c8_failure_yields_empty (CdxResponse.response 200 (Except.error ())) rfl

/-- Claim C9: the final write is the one unrecovered failure — if it
raises, `main` propagates exactly that error (terminating the run
nonzero); if it succeeds, `main` succeeds.  Per-item failures never reach
`main`: a resolver failing every record type still yields a DNS mapping of
empty lists per type, a failed archive query yields an empty URL list, and
failing probes yield error outcomes rather than raised exceptions. -/
theorem c9_only_write_failure_propagates (domain : String)
    (resolve : String → Except String (List String)) (cdxResp : CdxResponse)
    (behav : String → HeadResult × GetResult) (maxWayback : Nat)
    (htmlResp : Except String (Nat × List String)) (write : Report → Except String Unit)
    (e m : String) :
    (write (assembleReport domain resolve cdxResp behav maxWayback htmlResp) =
        Except.error e →
      main domain resolve cdxResp behav maxWayback htmlResp write = Except.error e) ∧
    (write (assembleReport domain resolve cdxResp behav maxWayback htmlResp) =
        Except.ok () →
      main domain resolve cdxResp behav maxWayback htmlResp write =
        Except.ok (assembleReport domain resolve cdxResp behav maxWayback htmlResp)) ∧
    dns_enum (fun _ => Except.error m) = recordTypes.map (fun t => (t, [])) ∧
    get_wayback_urls_via_cdx (CdxResponse.netError m) = [] ∧
    bulk_check_urls (fun _ => (HeadResult.exn m, GetResult.exn m)) ["http://a/"] =
      [{ url := "http://a/", status := none, final_url := none, error := some m }] := by
  refine ⟨?_, ?_, rfl, rfl, rfl⟩
  · intro hw
    simp [main, hw]
  · intro hw
    simp [main, hw]

/-- Witness for claim C9: with every collaborator failing, a failing write
surfaces as the run error while a succeeding write yields the report. -/
theorem c9_only_write_failure_propagates_witness :
    main "example.com" (fun _ => Except.error "NXDOMAIN") (CdxResponse.netError "down")
        (fun _ => (HeadResult.exn "t", GetResult.exn "t")) 5 (Except.error "no page")
        (fun _ => Except.error "disk full") = Except.error "disk full" ∧
    main "example.com" (fun _ => Except.error "NXDOMAIN") (CdxResponse.netError "down")
        (fun _ => (HeadResult.exn "t", GetResult.exn "t")) 5 (Except.error "no page")
        (fun _ => Except.ok ()) =
      Except.ok (assembleReport "example.com" (fun _ => Except.error "NXDOMAIN")
        (CdxResponse.netError "down") (fun _ => (HeadResult.exn "t", GetResult.exn "t")) 5
        (Except.error "no page")) :=
  ⟨(c9_only_write_failure_propagates "example.com" (fun _ => Except.error "NXDOMAIN")
      (CdxResponse.netError "down") (fun _ => (HeadResult.exn "t", GetResult.exn "t")) 5
      (Except.error "no page") (fun _ => Except.error "disk full") "disk full" "m").1 rfl,
   (c9_only_write_failure_propagates "example.com" (fun _ => Except.error "NXDOMAIN")
      (CdxResponse.netError "down") (fun _ => (HeadResult.exn "t", GetResult.exn "t")) 5
      (Except.error "no page") (fun _ => Except.ok ()) "e" "m").2.1 rfl⟩

end Recon
